import Mathlib

/-!
Verification of the recipe-API repository.

The repository ships two source files: the user serializers
(app/user/serializers.py) and the recipe API test suite
(app/recipe/tests/test_recipe_api.py).  The recipe subsystem itself
(core/models.py, recipe/serializers.py, recipe/views.py) is exercised by the
tests but its code is not in the tree, so the recipe data model and its
operations below are modelled from the specification (sections 3, 4.1, 4.2,
4.3 of spec.md); the user-serializer definitions are translated from
app/user/serializers.py directly.
-/

/-- Modelled from the spec: the Tag entity of core/models.py (not in src):
a named, user-scoped lookup entity with an id, a name and an owning user. -/
structure Tag where
  id : Nat
  name : String
  owner : Nat
deriving DecidableEq, Repr

/-- Modelled from the spec: the Ingredient entity of core/models.py (not in
src): same shape and scoping as Tag. -/
structure Ingredient where
  id : Nat
  name : String
  owner : Nat
deriving DecidableEq, Repr

/-- Modelled from the spec: the Recipe entity of core/models.py (not in src):
scalar attributes title, time_minutes (integer, nonnegative), price (decimal,
modelled as a rational), many-to-many links to tags and ingredients (held as
lists of ids, order-irrelevant), an optional stored-image reference and an
owning user. -/
structure Recipe where
  id : Nat
  title : String
  time_minutes : Nat
  price : Rat
  tags : List Nat
  ingredients : List Nat
  image : Option String
  owner : Nat
deriving DecidableEq, Repr

/-- Modelled from the spec: the persisted state backing the API (the
relational rows for tags, ingredients and recipes, plus the blob store of
uploaded image files referenced by path). -/
structure Db where
  tags : List Tag
  ingredients : List Ingredient
  recipes : List Recipe
  files : List (String × List Nat)
deriving DecidableEq, Repr

/-- Modelled from the spec: errors surfaced by the recipe endpoints —
a validation error (400) or a not-found (404). -/
inductive ApiError where
  | validation
  | notFound
deriving DecidableEq, Repr

/-- Insert a recipe into a list kept in descending id order. -/
def insertDesc (r : Recipe) : List Recipe → List Recipe
  | [] => [r]
  | x :: xs => if x.id ≤ r.id then r :: x :: xs else x :: insertDesc r xs

/-- Sort recipes newest-first by identifier (descending), the default list
ordering named by spec section 4.1. -/
def sortByIdDesc : List Recipe → List Recipe
  | [] => []
  | x :: xs => insertDesc x (sortByIdDesc xs)

/-- Does the recipe carry at least one tag from the given id set
(set-intersection semantics of spec section 4.1)? -/
def hasAnyTag (r : Recipe) (tids : List Nat) : Bool :=
  r.tags.any (fun t => tids.contains t)

/-- Does the recipe carry at least one ingredient from the given id set? -/
def hasAnyIngredient (r : Recipe) (iids : List Nat) : Bool :=
  r.ingredients.any (fun i => iids.contains i)

/-- Modelled from the spec: list_recipes of the Recipe Query/Filter layer
(recipe/views.py is not in src; spec section 4.1).  Always scopes to the
owner; when a tags filter is present keeps only recipes having at least one
matching tag; when an ingredients filter is present, analogously; both
filters combine as a logical AND; the result is ordered newest-first by id. -/
def list_recipes (db : Db) (owner : Nat) (tagF ingF : Option (List Nat)) :
    List Recipe :=
  let base := db.recipes.filter (fun r => r.owner == owner)
  let afterTags := match tagF with
    | none => base
    | some tids => base.filter (fun r => hasAnyTag r tids)
  let afterIngs := match ingF with
    | none => afterTags
    | some iids => afterTags.filter (fun r => hasAnyIngredient r iids)
  sortByIdDesc afterIngs

/-- Owner-scoped lookup of a recipe by id in a row list. -/
def lookupOwned (l : List Recipe) (owner rid : Nat) : Option Recipe :=
  (l.filter (fun r => r.owner == owner)).find? (fun r => r.id == rid)

/-- Modelled from the spec: the detail read of the recipe endpoint
(recipe/views.py is not in src).  Ownership scoping is always applied, so a
recipe of another user is simply not found (spec sections 3, 6, 7). -/
def get_recipe_detail (db : Db) (owner rid : Nat) : Option Recipe :=
  lookupOwned db.recipes owner rid

/-- Does the tag id resolve to a tag row owned by the given user? -/
def tagOwnedBy (db : Db) (owner tid : Nat) : Bool :=
  db.tags.any (fun t => t.id == tid && t.owner == owner)

/-- Does the ingredient id resolve to an ingredient row owned by the user? -/
def ingredientOwnedBy (db : Db) (owner iid : Nat) : Bool :=
  db.ingredients.any (fun i => i.id == iid && i.owner == owner)

/-- Modelled from the spec: the write-shape accepted by create and full
update (spec section 4.2): title, time_minutes, price, and optional lists of
tag ids and ingredient ids. -/
structure WriteShape where
  title : String
  time_minutes : Nat
  price : Rat
  tags : Option (List Nat) := none
  ingredients : Option (List Nat) := none
deriving DecidableEq, Repr

/-- Modelled from the spec: the partial write-shape accepted by partial
update — every field optional; omitted fields are left untouched. -/
structure PatchShape where
  title : Option String := none
  time_minutes : Option Nat := none
  price : Option Rat := none
  tags : Option (List Nat) := none
  ingredients : Option (List Nat) := none
deriving DecidableEq, Repr

/-- Every tag and ingredient id supplied in a write-shape resolves to an
entity owned by the requesting user (spec section 4.2). -/
def writeShapeValid (db : Db) (owner : Nat) (w : WriteShape) : Bool :=
  (w.tags.getD []).all (fun t => tagOwnedBy db owner t) &&
  (w.ingredients.getD []).all (fun i => ingredientOwnedBy db owner i)

/-- Every tag and ingredient id supplied in a patch resolves to an entity
owned by the requesting user. -/
def patchValid (db : Db) (owner : Nat) (p : PatchShape) : Bool :=
  (p.tags.getD []).all (fun t => tagOwnedBy db owner t) &&
  (p.ingredients.getD []).all (fun i => ingredientOwnedBy db owner i)

/-- A fresh identifier for a new recipe row: one past the largest id. -/
def freshId (db : Db) : Nat :=
  (db.recipes.map (fun r => r.id)).foldr max 0 + 1

/-- Modelled from the spec: create of the Recipe Serialization layer
(recipe/serializers.py is not in src; spec section 4.2).  First resolves all
referenced ids to owned entities, failing the whole operation on any miss;
then constructs the Recipe with owner equal to the requesting user and
attaches the resolved tag/ingredient sets.  On failure nothing is created. -/
def create_recipe (db : Db) (owner : Nat) (w : WriteShape) :
    Except ApiError (Db × Recipe) :=
  if writeShapeValid db owner w then
    let r : Recipe :=
      { id := freshId db, title := w.title, time_minutes := w.time_minutes,
        price := w.price, tags := w.tags.getD [],
        ingredients := w.ingredients.getD [], image := none, owner := owner }
    Except.ok ({ db with recipes := r :: db.recipes }, r)
  else Except.error ApiError.validation

/-- Apply a partial write-shape to a recipe: only supplied fields change;
omitted scalar fields and omitted relation fields are left untouched
(merge semantics of spec section 4.2). -/
def applyPatch (p : PatchShape) (r : Recipe) : Recipe :=
  { r with title := p.title.getD r.title,
           time_minutes := p.time_minutes.getD r.time_minutes,
           price := p.price.getD r.price,
           tags := p.tags.getD r.tags,
           ingredients := p.ingredients.getD r.ingredients }

/-- Modelled from the spec: partial update (PATCH) of a recipe
(recipe/views.py and recipe/serializers.py are not in src; spec sections 4.2
and 7).  The target is resolved with ownership scoping (otherwise
not-found); supplied relation ids must resolve to owned entities (otherwise
a validation error and no mutation); on success only the supplied fields
change. -/
def patch_recipe (db : Db) (owner rid : Nat) (p : PatchShape) :
    Except ApiError Db :=
  match get_recipe_detail db owner rid with
  | none => Except.error ApiError.notFound
  | some _ =>
    if patchValid db owner p then
      let rows := db.recipes.map
        (fun r => if r.id == rid && r.owner == owner then applyPatch p r
                  else r)
      Except.ok { db with recipes := rows }
    else Except.error ApiError.validation

/-- Apply a full write-shape to a recipe: replace semantics — all scalar
fields are set and relation fields not supplied are cleared to empty
(spec section 4.2). -/
def applyPut (w : WriteShape) (r : Recipe) : Recipe :=
  { r with title := w.title,
           time_minutes := w.time_minutes,
           price := w.price,
           tags := w.tags.getD [],
           ingredients := w.ingredients.getD [] }

/-- Modelled from the spec: full update (PUT) of a recipe (recipe/views.py
and recipe/serializers.py are not in src; spec section 4.2).  Replace
semantics: scalar fields are set from the payload and relation fields not
supplied are cleared to empty; supplied ids must resolve to owned entities. -/
def put_recipe (db : Db) (owner rid : Nat) (w : WriteShape) :
    Except ApiError Db :=
  match get_recipe_detail db owner rid with
  | none => Except.error ApiError.notFound
  | some _ =>
    if writeShapeValid db owner w then
      let rows := db.recipes.map
        (fun r => if r.id == rid && r.owner == owner then applyPut w r
                  else r)
      Except.ok { db with recipes := rows }
    else Except.error ApiError.validation

/-- Modelled from the spec: upload_image of the Image Upload component
(recipe/views.py and recipe/serializers.py are not in src; spec section
4.3).  The payload is raw bytes (modelled as a list of byte values) and the
image codec of the platform is modelled as the decode oracle: the handler
validates that the payload decodes as an image, stores the bytes at a
stable unique path, and records the reference on the Recipe row,
superseding any prior reference.  A payload that fails to decode is
rejected with a validation error and no partial write occurs, so the prior
state (including any prior image reference) stands.  The component does not
itself enforce ownership (spec section 4.3), so the target is resolved by
id alone. -/
def upload_image (db : Db) (decode : List Nat → Bool) (rid : Nat)
    (payload : List Nat) : Except ApiError Db :=
  match db.recipes.find? (fun r => r.id == rid) with
  | none => Except.error ApiError.notFound
  | some _ =>
    if decode payload then
      let path := "uploads/recipe/" ++ toString rid ++ "/" ++
        toString db.files.length
      Except.ok { db with
        recipes := db.recipes.map
          (fun r => if r.id == rid then { r with image := some path } else r),
        files := (path, payload) :: db.files }
    else Except.error ApiError.validation

/-- Users as stored by the user model referenced in app/user/serializers.py:
id, email, name and the (hashed) password. -/
structure StoredUser where
  id : Nat
  email : String
  name : String
  password : String
deriving DecidableEq, Repr

/-- Field list declared by UserSerializer.Meta.fields in
app/user/serializers.py. -/
def userSerializerFields : List String :=
  ["id", "email", "name", "password"]

/-- Fields marked write_only in UserSerializer.Meta.extra_kwargs. -/
def userSerializerWriteOnlyFields : List String :=
  ["password"]

/-- The min_length declared for the password field in
UserSerializer.Meta.extra_kwargs. -/
def passwordMinLength : Nat := 5

/-- Value of a declared field on a stored user. -/
def userFieldValue (u : StoredUser) (f : String) : String :=
  if f = "id" then toString u.id
  else if f = "email" then u.email
  else if f = "name" then u.name
  else u.password

/-- Read representation produced by UserSerializer: the declared fields with
the write_only ones excluded (the framework semantics of the write_only kwarg
applied to the Meta declaration in app/user/serializers.py). -/
def userSerializerRepresentation (u : StoredUser) : List (String × String) :=
  (userSerializerFields.filter
    (fun f => !(userSerializerWriteOnlyFields.contains f))).map
    (fun f => (f, userFieldValue u f))

/-- Write input accepted by UserSerializer. -/
structure UserInput where
  email : String
  name : String
  password : String
deriving DecidableEq, Repr

/-- Field validation run by UserSerializer before create: the min_length=5
constraint on the password (app/user/serializers.py, extra_kwargs). -/
def userSerializerRunValidation (inp : UserInput) : Except String UserInput :=
  if inp.password.length < passwordMinLength then
    Except.error "Ensure this field has at least 5 characters."
  else Except.ok inp

/-- UserSerializer.create: runs field validation, then creates the user with
an encrypted password (create_user of the user model; the hash function is
external and passed as a parameter).  Invalid input creates no user. -/
def userSerializerCreate (hash : String → String) (nextId : Nat)
    (inp : UserInput) : Except String StoredUser :=
  match userSerializerRunValidation inp with
  | Except.error e => Except.error e
  | Except.ok v =>
    Except.ok { id := nextId, email := v.email, name := v.name,
                password := hash v.password }

/-- Python truthiness of an optional string: None and the empty string are
falsy, mirroring the if email and password test in
UserLoginSerializer.validate. -/
def truthyStr : Option String → Bool
  | none => false
  | some s => !(s == "")

/-- The attrs dictionary received by UserLoginSerializer.validate: the two
declared fields, each possibly absent. -/
structure LoginAttrs where
  email : Option String
  password : Option String
deriving DecidableEq, Repr

/-- An authenticated user returned by the authenticate call. -/
structure AuthUser where
  id : Nat
deriving DecidableEq, Repr

/-- UserLoginSerializer.validate from app/user/serializers.py: reads email
and password from attrs; if both are truthy it calls authenticate (an
external collaborator, passed as a parameter; it returns none for bad
credentials and for inactive users) and raises a ValidationError when no
user comes back; if either is falsy it raises the must-include error;
otherwise it returns the attrs augmented with the authenticated user. -/
def loginValidate (authenticate : String → String → Option AuthUser)
    (attrs : LoginAttrs) : Except String (LoginAttrs × AuthUser) :=
  if truthyStr attrs.email && truthyStr attrs.password then
    match authenticate (attrs.email.getD "") (attrs.password.getD "") with
    | some user => Except.ok (attrs, user)
    | none => Except.error "Unable to log in with provided credentials."
  else
    Except.error "Must include email and password."

/-- CharField input conversion with the trim_whitespace flag (framework
semantics): the value is stripped of surrounding whitespace only when the
flag is true.  The password field of UserLoginSerializer declares
trim_whitespace=False. -/
def charFieldToInternal (trimWhitespace : Bool) (s : String) : String :=
  if trimWhitespace then s.trim else s

/-- The trim_whitespace flag declared on the password field of
UserLoginSerializer in app/user/serializers.py. -/
def passwordTrimWhitespace : Bool := false

/-- Sample tag used to evaluate the theorems on concrete data. -/
def sampleTagA : Tag := { id := 1, name := "tag1", owner := 1 }

/-- Second sample tag of the same owner. -/
def sampleTagB : Tag := { id := 2, name := "tag2", owner := 1 }

/-- Sample ingredient of the same owner. -/
def sampleIngA : Ingredient := { id := 1, name := "ingredient1", owner := 1 }

/-- Sample recipe of user 1 carrying one tag and one ingredient. -/
def sampleRecipe1 : Recipe :=
  { id := 1, title := "recipe1", time_minutes := 5, price := 10,
    tags := [1], ingredients := [1], image := none, owner := 1 }

/-- Sample recipe of user 2. -/
def sampleRecipe2 : Recipe :=
  { id := 2, title := "recipe2", time_minutes := 5, price := 10,
    tags := [2], ingredients := [], image := none, owner := 2 }

/-- Sample persisted state holding the rows above. -/
def sampleDb : Db :=
  { tags := [sampleTagA, sampleTagB], ingredients := [sampleIngA],
    recipes := [sampleRecipe1, sampleRecipe2], files := [] }

/-- Sample create payload naming two tags and one ingredient. -/
def sampleWrite : WriteShape :=
  { title := "test recipe tags", time_minutes := 5, price := 99,
    tags := some [1, 2], ingredients := some [1] }

/-- Sample full-update payload supplying only the scalar fields. -/
def samplePut : WriteShape :=
  { title := "Nsala Soup", time_minutes := 60, price := 100 }

/-- Sample image decoder: accepts any non-empty byte payload. -/
def sampleDecode (l : List Nat) : Bool := !(l.isEmpty)

/-- Sample write payload naming a tag id that resolves to nothing. -/
def badWrite : WriteShape :=
  { title := "x", time_minutes := 1, price := 1, tags := some [99] }

/-- Sample patch payload naming a tag id that resolves to nothing. -/
def badPatch : PatchShape := { tags := some [99] }

theorem mem_insertDesc (r a : Recipe) (l : List Recipe) :
    a ∈ insertDesc r l ↔ a = r ∨ a ∈ l := by
  induction l with
  | nil => simp [insertDesc]
  | cons x xs ih =>
    simp only [insertDesc]
    split
    · simp [List.mem_cons]
    · simp only [List.mem_cons, ih]
      tauto

theorem mem_sortByIdDesc (a : Recipe) (l : List Recipe) :
    a ∈ sortByIdDesc l ↔ a ∈ l := by
  induction l with
  | nil => simp [sortByIdDesc]
  | cons x xs ih => simp [sortByIdDesc, mem_insertDesc, ih]

theorem mem_list_recipes_iff (db : Db) (owner : Nat)
    (tagF ingF : Option (List Nat)) (r : Recipe) :
    r ∈ list_recipes db owner tagF ingF ↔
      (r ∈ db.recipes ∧ r.owner = owner ∧
       tagF.all (fun tids => hasAnyTag r tids) = true ∧
       ingF.all (fun iids => hasAnyIngredient r iids) = true) := by
  unfold list_recipes
  cases tagF <;> cases ingF <;>
    (rw [mem_sortByIdDesc]; simp [List.mem_filter, beq_iff_eq]; try tauto)

theorem lookupOwned_eq_some (l : List Recipe) (owner rid : Nat) (r : Recipe)
    (h : lookupOwned l owner rid = some r) :
    r ∈ l ∧ r.owner = owner ∧ r.id = rid := by
  unfold lookupOwned at h
  have hmem := List.mem_of_find?_eq_some h
  have hp := List.find?_some h
  rw [List.mem_filter] at hmem
  refine ⟨hmem.1, ?_, ?_⟩
  · simpa [beq_iff_eq] using hmem.2
  · simpa [beq_iff_eq] using hp

/-- C1: for distinct users U1 and U2, a list query or a detail query issued
by U2 returns only recipes owned by U2; a recipe of U1 never appears in
U2's list or detail results. -/
theorem list_detail_owner_scoped (db : Db) (u1 u2 : Nat) (h : u1 ≠ u2)
    (tagF ingF : Option (List Nat)) :
    (∀ r ∈ list_recipes db u2 tagF ingF, r.owner = u2 ∧ r.owner ≠ u1) ∧
    (∀ rid r, get_recipe_detail db u2 rid = some r →
      r.owner = u2 ∧ r.owner ≠ u1) := by
  constructor
  · intro r hr
    have hown := ((mem_list_recipes_iff db u2 tagF ingF r).mp hr).2.1
    exact ⟨hown, by rw [hown]; exact fun hh => h hh.symm⟩
  · intro rid r hr
    have hown := (lookupOwned_eq_some db.recipes u2 rid r hr).2.1
    exact ⟨hown, by rw [hown]; exact fun hh => h hh.symm⟩

/-- C2: filtering an owner's list by a non-empty set of tag ids returns
exactly the owner's recipes whose tag set intersects the given id set; one
matching tag suffices and recipes with no matching tag are excluded. -/
theorem filter_by_tags_intersection (db : Db) (owner : Nat)
    (tids : List Nat) (_hne : tids ≠ []) (r : Recipe) :
    r ∈ list_recipes db owner (some tids) none ↔
      (r ∈ db.recipes ∧ r.owner = owner ∧ ∃ t ∈ r.tags, t ∈ tids) := by
  rw [mem_list_recipes_iff]
  simp [hasAnyTag]

/-- C6: filtering by a tag id set and an ingredient id set together returns
exactly the intersection of the two individual filter results. -/
theorem combined_filters_intersection (db : Db) (owner : Nat)
    (tids iids : List Nat) (r : Recipe) :
    r ∈ list_recipes db owner (some tids) (some iids) ↔
      (r ∈ list_recipes db owner (some tids) none ∧
       r ∈ list_recipes db owner none (some iids)) := by
  simp only [mem_list_recipes_iff]
  simp
  tauto

theorem lookupOwned_map (l : List Recipe) (g : Recipe → Recipe)
    (owner rid : Nat)
    (hid : ∀ r, (g r).id = r.id) (howner : ∀ r, (g r).owner = r.owner) :
    lookupOwned (l.map g) owner rid = Option.map g (lookupOwned l owner rid) := by
  induction l with
  | nil => rfl
  | cons x xs ih =>
    unfold lookupOwned at *
    simp only [List.map_cons, List.filter_cons, howner x]
    by_cases hofl : (x.owner == owner) = true
    · simp only [hofl, if_true]
      by_cases hidl : (x.id == rid) = true
      · rw [List.find?_cons_of_pos (p := fun r : Recipe => r.id == rid) _
            (by simpa [hid x] using hidl),
          List.find?_cons_of_pos (p := fun r : Recipe => r.id == rid) _ hidl]
        rfl
      · rw [List.find?_cons_of_neg (p := fun r : Recipe => r.id == rid) _
            (by simpa [hid x] using hidl),
          List.find?_cons_of_neg (p := fun r : Recipe => r.id == rid) _ hidl]
        exact ih
    · simp only [hofl, if_false]
      exact ih

theorem find_by_id_map (l : List Recipe) (g : Recipe → Recipe) (rid : Nat)
    (hid : ∀ r, (g r).id = r.id) :
    (l.map g).find? (fun r => r.id == rid) =
      Option.map g (l.find? (fun r => r.id == rid)) := by
  induction l with
  | nil => rfl
  | cons x xs ih =>
    simp only [List.map_cons]
    by_cases hidl : (x.id == rid) = true
    · rw [List.find?_cons_of_pos (p := fun r : Recipe => r.id == rid) _
          (by simpa [hid x] using hidl),
        List.find?_cons_of_pos (p := fun r : Recipe => r.id == rid) _ hidl]
      rfl
    · rw [List.find?_cons_of_neg (p := fun r : Recipe => r.id == rid) _
          (by simpa [hid x] using hidl),
        List.find?_cons_of_neg (p := fun r : Recipe => r.id == rid) _ hidl]
      exact ih

/-- C3: creating a recipe with valid tag ids and valid ingredient ids stores
a recipe whose tag collection is exactly the supplied tag ids (in number and
membership) and whose ingredient collection is exactly the supplied
ingredient ids, and re-reading the stored recipe yields the same
memberships. -/
theorem create_stores_supplied_relations (db : Db) (owner : Nat)
    (w : WriteShape) (tids iids : List Nat)
    (ht : w.tags = some tids) (hi : w.ingredients = some iids)
    (htv : ∀ t ∈ tids, tagOwnedBy db owner t = true)
    (hiv : ∀ i ∈ iids, ingredientOwnedBy db owner i = true) :
    ∃ db' r, create_recipe db owner w = Except.ok (db', r) ∧
      r.tags = tids ∧ r.ingredients = iids ∧
      r.tags.length = tids.length ∧
      r.ingredients.length = iids.length ∧
      get_recipe_detail db' owner r.id = some r := by
  have hvalid : writeShapeValid db owner w = true := by
    unfold writeShapeValid
    rw [ht, hi]
    simp only [Option.getD_some, Bool.and_eq_true, List.all_eq_true]
    exact ⟨htv, hiv⟩
  unfold create_recipe
  rw [if_pos hvalid]
  refine ⟨_, _, rfl, ?_, ?_, ?_, ?_, ?_⟩
  · simp [ht]
  · simp [hi]
  · simp [ht]
  · simp [hi]
  · unfold get_recipe_detail lookupOwned
    simp [List.filter_cons]

/-- C4: a partial update supplying only a title and a tag list replaces the
title and the tag set with exactly the supplied values while time_minutes,
price, the ingredient set and every other field of the recipe stay as they
were. -/
theorem patch_changes_only_supplied_fields (db : Db) (owner rid : Nat)
    (t : String) (xs : List Nat) (r0 : Recipe)
    (h0 : get_recipe_detail db owner rid = some r0)
    (hxs : ∀ x ∈ xs, tagOwnedBy db owner x = true) :
    ∃ db',
      patch_recipe db owner rid { title := some t, tags := some xs } =
        Except.ok db' ∧
      get_recipe_detail db' owner rid =
        some { r0 with title := t, tags := xs } := by
  have hspec := lookupOwned_eq_some db.recipes owner rid r0 h0
  have hvalid :
      patchValid db owner { title := some t, tags := some xs } = true := by
    unfold patchValid
    simp only [Option.getD_some, Option.getD_none, Bool.and_eq_true,
      List.all_eq_true]
    exact ⟨hxs, by intro i hi; cases hi⟩
  refine ⟨{ db with recipes := db.recipes.map (fun r => if r.id == rid && r.owner == owner then applyPatch { title := some t, tags := some xs } r else r) }, ?_, ?_⟩
  · unfold patch_recipe
    rw [h0]
    simp only [hvalid, if_true]
  · unfold get_recipe_detail
    rw [lookupOwned_map db.recipes _ owner rid
      (by intro r; split <;> rfl)
      (by intro r; split <;> rfl)]
    unfold get_recipe_detail at h0
    rw [h0]
    have hcond : (r0.id == rid && r0.owner == owner) = true := by
      simp [hspec.2.1, hspec.2.2]
    simp only [Option.map_some', hcond, if_true]
    rfl

/-- C5: a full update supplying only title, time_minutes and price sets
those three scalar fields and clears both the tag set and the ingredient
set of the recipe to empty. -/
theorem put_clears_omitted_relations (db : Db) (owner rid : Nat)
    (w : WriteShape) (r0 : Recipe)
    (h0 : get_recipe_detail db owner rid = some r0)
    (_htags : r0.tags ≠ []) (_hings : r0.ingredients ≠ [])
    (hwt : w.tags = none) (hwi : w.ingredients = none) :
    ∃ db',
      put_recipe db owner rid w = Except.ok db' ∧
      get_recipe_detail db' owner rid =
        some { r0 with title := w.title, time_minutes := w.time_minutes,
                       price := w.price, tags := [], ingredients := [] } := by
  have hspec := lookupOwned_eq_some db.recipes owner rid r0 h0
  have hvalid : writeShapeValid db owner w = true := by
    unfold writeShapeValid
    rw [hwt, hwi]
    rfl
  refine ⟨{ db with recipes := db.recipes.map (fun r => if r.id == rid && r.owner == owner then applyPut w r else r) }, ?_, ?_⟩
  · unfold put_recipe
    rw [h0]
    simp only [hvalid, if_true]
  · unfold get_recipe_detail
    rw [lookupOwned_map db.recipes _ owner rid
      (by intro r; split <;> rfl)
      (by intro r; split <;> rfl)]
    unfold get_recipe_detail at h0
    rw [h0]
    have hcond : (r0.id == rid && r0.owner == owner) = true := by
      simp [hspec.2.1, hspec.2.2]
    simp only [Option.map_some', hcond, if_true]
    simp [applyPut, hwt, hwi]

/-- C8: a create or update request carrying a tag or ingredient id that does
not resolve to an entity owned by the requesting user fails with a
validation error; no recipe is created and the stored rows are not mutated
(the operations return a new state only on success, so on error the prior
state stands). -/
theorem invalid_relation_ids_rejected (db : Db) (owner rid : Nat)
    (w : WriteShape) (p : PatchShape)
    (hw : (∃ t ∈ w.tags.getD [], tagOwnedBy db owner t = false) ∨
          (∃ i ∈ w.ingredients.getD [], ingredientOwnedBy db owner i = false))
    (hp : (∃ t ∈ p.tags.getD [], tagOwnedBy db owner t = false) ∨
          (∃ i ∈ p.ingredients.getD [], ingredientOwnedBy db owner i = false))
    (hex : ∃ r0, get_recipe_detail db owner rid = some r0) :
    create_recipe db owner w = Except.error ApiError.validation ∧
    patch_recipe db owner rid p = Except.error ApiError.validation ∧
    put_recipe db owner rid w = Except.error ApiError.validation := by
  obtain ⟨r0, hr0⟩ := hex
  have hwv : writeShapeValid db owner w = false := by
    cases hb : writeShapeValid db owner w with
    | false => rfl
    | true =>
      exfalso
      unfold writeShapeValid at hb
      rw [Bool.and_eq_true, List.all_eq_true, List.all_eq_true] at hb
      rcases hw with ⟨x, hxm, hxf⟩ | ⟨x, hxm, hxf⟩
      · rw [hb.1 x hxm] at hxf
        exact Bool.noConfusion hxf
      · rw [hb.2 x hxm] at hxf
        exact Bool.noConfusion hxf
  have hpv : patchValid db owner p = false := by
    cases hb : patchValid db owner p with
    | false => rfl
    | true =>
      exfalso
      unfold patchValid at hb
      rw [Bool.and_eq_true, List.all_eq_true, List.all_eq_true] at hb
      rcases hp with ⟨x, hxm, hxf⟩ | ⟨x, hxm, hxf⟩
      · rw [hb.1 x hxm] at hxf
        exact Bool.noConfusion hxf
      · rw [hb.2 x hxm] at hxf
        exact Bool.noConfusion hxf
  refine ⟨?_, ?_, ?_⟩
  · unfold create_recipe
    rw [hwv]
    rfl
  · unfold patch_recipe
    rw [hr0, hpv]
    rfl
  · unfold put_recipe
    rw [hr0, hwv]
    rfl

/-- C7: for an existing recipe, upload succeeds exactly when the payload
decodes as an image (per the platform decode oracle); on success the image
reference is recorded on the recipe and the stored path resolves in the
blob store to the uploaded bytes; a payload that fails to decode is
rejected with a validation error, and since the operation returns a new
state only on success, no partial write occurs and any prior image
reference stands. -/
theorem upload_image_iff_decodes (db : Db) (decode : List Nat → Bool)
    (rid : Nat) (payload : List Nat) (r0 : Recipe)
    (hfind : db.recipes.find? (fun r => r.id == rid) = some r0) :
    ((∃ db', upload_image db decode rid payload = Except.ok db') ↔
      decode payload = true) ∧
    (decode payload = true →
      ∃ db' path, upload_image db decode rid payload = Except.ok db' ∧
        db'.recipes.find? (fun r => r.id == rid) =
          some { r0 with image := some path } ∧
        db'.files.lookup path = some payload) ∧
    (decode payload = false →
      upload_image db decode rid payload = Except.error ApiError.validation) := by
  have hid0 : (r0.id == rid) = true :=
    List.find?_some (p := fun r : Recipe => r.id == rid) hfind
  cases hd : decode payload with
  | false =>
    refine ⟨?_, ?_, ?_⟩
    · constructor
      · rintro ⟨db', hdb'⟩
        unfold upload_image at hdb'
        rw [hfind, hd] at hdb'
        exact Except.noConfusion hdb'
      · intro hc
        exact Bool.noConfusion hc
    · intro hc
      exact Bool.noConfusion hc
    · intro _
      unfold upload_image
      rw [hfind, hd]
      rfl
  | true =>
    have hrun :
        upload_image db decode rid payload = Except.ok { db with recipes := db.recipes.map (fun r => if r.id == rid then { r with image := some ("uploads/recipe/" ++ toString rid ++ "/" ++ toString db.files.length) } else r), files := ("uploads/recipe/" ++ toString rid ++ "/" ++ toString db.files.length, payload) :: db.files } := by
      unfold upload_image
      rw [hfind, hd]
      rfl
    refine ⟨⟨fun _ => rfl, fun _ => ⟨_, hrun⟩⟩, ?_, ?_⟩
    · intro _
      refine ⟨_, "uploads/recipe/" ++ toString rid ++ "/" ++
        toString db.files.length, hrun, ?_, ?_⟩
      · rw [find_by_id_map db.recipes _ rid (by intro r; split <;> rfl),
          hfind]
        simp only [Option.map_some', hid0, if_true]
      · simp [List.lookup]
    · intro hc
      exact Bool.noConfusion hc

/-- C9: the serialized read output of UserSerializer contains exactly the
fields id, email and name — the password, being write_only, never appears —
and an input whose password is shorter than 5 characters fails the
min_length validation, so no user is created. -/
theorem user_serializer_password_write_only
    (u : StoredUser) (hash : String → String) (nextId : Nat)
    (inp : UserInput) (hshort : inp.password.length < 5) :
    ((userSerializerRepresentation u).map Prod.fst = ["id", "email", "name"] ∧
     "password" ∉ (userSerializerRepresentation u).map Prod.fst) ∧
    ∃ e, userSerializerCreate hash nextId inp = Except.error e := by
  constructor
  · constructor
    · rfl
    · intro hmem
      simp [userSerializerRepresentation, userSerializerFields,
        userSerializerWriteOnlyFields, userFieldValue] at hmem
  · refine ⟨"Ensure this field has at least 5 characters.", ?_⟩
    unfold userSerializerCreate userSerializerRunValidation passwordMinLength
    rw [if_pos hshort]

/-- C10 counterexample: the claim says validate raises exactly when the
email or the password is absent or authentication yields no user, but with
the email present-yet-empty and an authenticate collaborator that would
return a user, the code still raises (the if email and password test uses
Python truthiness, under which an empty string fails), so the claim as
stated is false at this input. -/
theorem login_validate_absent_counterexample :
    (LoginAttrs.mk (some "") (some "pw")).email ≠ none ∧
    (LoginAttrs.mk (some "") (some "pw")).password ≠ none ∧
    (fun (_ _ : String) => some (AuthUser.mk 1)) "" "pw" ≠ none ∧
    ∃ e, loginValidate (fun _ _ => some (AuthUser.mk 1))
        (LoginAttrs.mk (some "") (some "pw")) = Except.error e := by
  refine ⟨by simp, by simp, by simp, "Must include email and password.", ?_⟩
  rfl

/-- C10 (amended): UserLoginSerializer.validate raises a ValidationError
exactly when the email or the password is absent or empty (falsy), or when
authentication with the supplied credentials yields no user (which includes
inactive users); otherwise it returns the input attributes augmented with
the authenticated user; and the password field, declaring
trim_whitespace=False, hands the password to authentication with
surrounding whitespace preserved. -/
theorem login_validate_truthiness (auth : String → String → Option AuthUser)
    (attrs : LoginAttrs) :
    ((∃ e, loginValidate auth attrs = Except.error e) ↔
      (truthyStr attrs.email = false ∨ truthyStr attrs.password = false ∨
       auth (attrs.email.getD "") (attrs.password.getD "") = none)) ∧
    (∀ u, truthyStr attrs.email = true → truthyStr attrs.password = true →
      auth (attrs.email.getD "") (attrs.password.getD "") = some u →
      loginValidate auth attrs = Except.ok (attrs, u)) ∧
    (∀ s, charFieldToInternal passwordTrimWhitespace s = s) := by
  refine ⟨?_, ?_, fun s => rfl⟩
  · by_cases he : truthyStr attrs.email = true
    · by_cases hp : truthyStr attrs.password = true
      · cases ha : auth (attrs.email.getD "") (attrs.password.getD "") with
        | none => simp [loginValidate, he, hp, ha]
        | some u => simp [loginValidate, he, hp, ha]
      · have hp' : truthyStr attrs.password = false := by
          revert hp; cases truthyStr attrs.password <;> simp
        simp [loginValidate, he, hp']
    · have he' : truthyStr attrs.email = false := by
        revert he; cases truthyStr attrs.email <;> simp
      simp [loginValidate, he']
  · intro u he hp ha
    simp [loginValidate, he, hp, ha]

theorem list_detail_owner_scoped_witness :
    (∀ r ∈ list_recipes sampleDb 2 none none, r.owner = 2 ∧ r.owner ≠ 1) ∧
    (∀ rid r, get_recipe_detail sampleDb 2 rid = some r →
      r.owner = 2 ∧ r.owner ≠ 1) :=
  list_detail_owner_scoped sampleDb 1 2 (by decide) none none

theorem filter_by_tags_intersection_witness :
    sampleRecipe1 ∈ list_recipes sampleDb 1 (some [1, 2]) none ↔
      (sampleRecipe1 ∈ sampleDb.recipes ∧ sampleRecipe1.owner = 1 ∧
       ∃ t ∈ sampleRecipe1.tags, t ∈ [1, 2]) :=
  filter_by_tags_intersection sampleDb 1 [1, 2] (by decide) sampleRecipe1

theorem create_stores_supplied_relations_witness :
    ∃ db' r, create_recipe sampleDb 1 sampleWrite = Except.ok (db', r) ∧
      r.tags = [1, 2] ∧ r.ingredients = [1] ∧
      r.tags.length = [1, 2].length ∧ r.ingredients.length = [1].length ∧
      get_recipe_detail db' 1 r.id = some r :=
  create_stores_supplied_relations sampleDb 1 sampleWrite [1, 2] [1]
    rfl rfl (by decide) (by decide)

theorem patch_changes_only_supplied_fields_witness :
    ∃ db', patch_recipe sampleDb 1 1
        { title := some "Egusi Soup", tags := some [2] } = Except.ok db' ∧
      get_recipe_detail db' 1 1 =
        some { sampleRecipe1 with title := "Egusi Soup", tags := [2] } :=
  patch_changes_only_supplied_fields sampleDb 1 1 "Egusi Soup" [2]
    sampleRecipe1 (by decide) (by decide)

theorem put_clears_omitted_relations_witness :
    ∃ db', put_recipe sampleDb 1 1 samplePut = Except.ok db' ∧
      get_recipe_detail db' 1 1 =
        some { sampleRecipe1 with title := samplePut.title, time_minutes := samplePut.time_minutes, price := samplePut.price, tags := [], ingredients := [] } :=
  put_clears_omitted_relations sampleDb 1 1 samplePut sampleRecipe1
    (by decide) (by decide) (by decide) rfl rfl

theorem upload_image_iff_decodes_witness :
    ((∃ db', upload_image sampleDb sampleDecode 1 [7] = Except.ok db') ↔
      sampleDecode [7] = true) ∧
    (sampleDecode [7] = true →
      ∃ db' path, upload_image sampleDb sampleDecode 1 [7] = Except.ok db' ∧
        db'.recipes.find? (fun r => r.id == 1) =
          some { sampleRecipe1 with image := some path } ∧
        db'.files.lookup path = some [7]) ∧
    (sampleDecode [7] = false →
      upload_image sampleDb sampleDecode 1 [7] =
        Except.error ApiError.validation) :=
  upload_image_iff_decodes sampleDb sampleDecode 1 [7] sampleRecipe1
    (by decide)

theorem invalid_relation_ids_rejected_witness :
    create_recipe sampleDb 1 badWrite = Except.error ApiError.validation ∧
    patch_recipe sampleDb 1 1 badPatch = Except.error ApiError.validation ∧
    put_recipe sampleDb 1 1 badWrite = Except.error ApiError.validation :=
  invalid_relation_ids_rejected sampleDb 1 1 badWrite badPatch
    (Or.inl ⟨99, by decide, by decide⟩) (Or.inl ⟨99, by decide, by decide⟩)
    ⟨sampleRecipe1, by decide⟩

theorem user_serializer_password_write_only_witness :
    ((userSerializerRepresentation
        { id := 1, email := "test@domain.com", name := "n",
          password := "testPass" }).map Prod.fst = ["id", "email", "name"] ∧
     "password" ∉ (userSerializerRepresentation
        { id := 1, email := "test@domain.com", name := "n",
          password := "testPass" }).map Prod.fst) ∧
    ∃ e, userSerializerCreate (fun s => s) 1
        { email := "a@b.c", name := "n", password := "abc" } =
      Except.error e :=
  user_serializer_password_write_only
    { id := 1, email := "test@domain.com", name := "n",
      password := "testPass" }
    (fun s => s) 1 { email := "a@b.c", name := "n", password := "abc" }
    (by decide)

theorem login_validate_truthiness_witness :
    loginValidate
      (fun e p => if e == "a@b.c" && p == " pw " then some (AuthUser.mk 7)
                  else none)
      (LoginAttrs.mk (some "a@b.c") (some " pw ")) =
      Except.ok (LoginAttrs.mk (some "a@b.c") (some " pw "), AuthUser.mk 7) :=
  (login_validate_truthiness
    (fun e p => if e == "a@b.c" && p == " pw " then some (AuthUser.mk 7)
                else none)
    (LoginAttrs.mk (some "a@b.c") (some " pw "))).2.1
    (AuthUser.mk 7) (by decide) (by decide) (by decide)
